import Mathlib

/-!
Verification of the sbertask FIFO character-device driver
(src/sber/sbertask.c) against its natural-language specification.

The driver keeps bounded FIFO byte queues (capacity `BUFFER_DEPTH = 1000`)
in a red-black tree keyed by pid.  Each queue (`struct rb_buf_node`) owns a
doubly linked chain of one-byte `buffer_element`s: the first allocated
element (`buffer_head`) is a pure sentinel anchor created on a write that
finds `buffer_length == 0`; the data-carrying elements are linked after it
with `list_add_tail` and are iterated from the front by
`list_for_each_entry_safe`.

The shallow embedding below models one queue node as a record: the sentinel
pointer `buffer_head` is modelled by the flag `head_alloc`
(`head_alloc = false` iff `buffer_head == NULL`), the data-carrying elements
of the chain by the list `chain` (front of the list = head of the queue),
and `buffer_length` keeps its C type `int` as `Int`.  Kernel allocation
(`kmem_cache_alloc`) and user-space copies (`get_user`/`put_user`) are
modelled as always succeeding; the spinlocks make each call atomic, so the
operations are modelled as sequential state transformers.  A
`wait_event_interruptible` call is modelled explicitly: the read path
returns a `blocks` outcome when the wait condition is false, and
`sbertask_read_resume` models re-evaluating the wait condition after a
wake-up.
-/

/-- Queue capacity, `#define BUFFER_DEPTH 1000` in sbertask.c. -/
def BUFFER_DEPTH : Int := 1000

/-- Linux error number used by the driver: invalid argument. -/
def EINVAL : Int := 22

/-- Linux error number used by the driver: device or resource busy. -/
def EBUSY : Int := 16

/-- A payload byte (`char data` of `struct buffer_element`).  The claims do
not depend on the byte width, so bytes are modelled as `Nat`. -/
abbrev Byte := Nat

/-- A process id, the red-black-tree key (`pid_t pid`). -/
abbrev Pid := Int

/-- One queue node, `struct rb_buf_node` of sbertask.c.  `chain` holds the
data-carrying elements of the `list_head` chain in queue order (front =
oldest byte); `head_alloc` records whether the sentinel `buffer_head`
element has been allocated (`buffer_head != NULL`). -/
structure RbBufNode where
  pid : Pid
  chain : List Byte
  head_alloc : Bool
  buffer_length : Int
  read_ready : Bool
  write_ready : Bool
  finished : Bool
  deriving Repr, DecidableEq

/-- The field initialisation performed by `add_buffer` in sbertask.c:
`buffer_head = NULL`, `buffer_length = 0`, `read_ready = 0`,
`write_ready = 1`, `finished = 0`. -/
def initNode (pid : Pid) : RbBufNode :=
  { pid := pid
    chain := []
    head_alloc := false
    buffer_length := 0
    read_ready := false
    write_ready := true
    finished := false }

/-- The append loop of `sbertask_write`:
`for (i = 0; i < length && buf_node->buffer_length < BUFFER_DEPTH; buf++, i++)`
allocating one element per byte, linking it at the tail and incrementing
`buffer_length`.  Returns the final chain, the final `buffer_length` and
the loop counter `i` (the number of bytes appended, which the function
returns as `ret`). -/
def write_loop (chain : List Byte) (blen : Int) : List Byte → List Byte × Int × Nat
  | [] => (chain, blen, 0)
  | b :: rest =>
      if blen < BUFFER_DEPTH then
        let r := write_loop (chain ++ [b]) (blen + 1) rest
        (r.1, r.2.1, r.2.2 + 1)
      else
        (chain, blen, 0)

/-- The function `sbertask_write` acting on its queue node (the mode-specific locking is
what differs between modes and is elided; allocations and `get_user`
succeed).  Follows the C control flow: if the buffer is full, clear
`write_ready` and wait on `write_wq` (modelled as passing through to the
post-wake continuation; the per-iteration capacity guard of the loop bounds
the length regardless); if `buffer_length == 0`, allocate a fresh sentinel
`buffer_head` with an empty element list; run the append loop; finally at
the `exit` label set `read_ready = 1` and wake readers.  Returns the new
node and `ret = i`. -/
def sbertask_write_node (n : RbBufNode) (data : List Byte) : RbBufNode × Nat :=
  let n1 := if BUFFER_DEPTH ≤ n.buffer_length then { n with write_ready := false } else n
  let n2 := if n1.buffer_length = 0 then { n1 with head_alloc := true, chain := [] } else n1
  let r := write_loop n2.chain n2.buffer_length data
  ({ n2 with chain := r.1, buffer_length := r.2.1, read_ready := true }, r.2.2)

/-- The transfer loop of `sbertask_read`: iterate the chain from the head
with `list_for_each_entry_safe`; while `c < buffer_length && c < length`,
`put_user` the byte, `list_del` the element and increment `c`; otherwise
break.  `c` is a C `int`, `length` a `size_t`; `c` stays non-negative, so
the `c < length` comparison is modelled on `Int`.  Returns the delivered
bytes in order, the remaining chain and the final `c`. -/
def read_loop (c blen : Int) (len : Nat) : List Byte → List Byte × List Byte × Int
  | [] => ([], [], c)
  | b :: rest =>
      if c < blen ∧ c < (len : Int) then
        let r := read_loop (c + 1) blen len rest
        (b :: r.1, r.2.1, r.2.2)
      else
        ([], b :: rest, c)

/-- The tail of `sbertask_read` after the transfer loop:
`ret = c; buffer_length -= c; if (buffer_length == 0) read_ready = 0;
write_ready = 1; wake_up(write_wq);` returning the new node, the bytes
delivered to user space and `ret`. -/
def transferBytes (n : RbBufNode) (len : Nat) : RbBufNode × List Byte × Int :=
  let r := read_loop 0 n.buffer_length len n.chain
  let blen := n.buffer_length - r.2.2
  ({ n with chain := r.2.1
            buffer_length := blen
            read_ready := if blen = 0 then false else n.read_ready
            write_ready := true },
   r.1, r.2.2)

/-- Outcome of one `sbertask_read` call on its queue node: either the
caller suspends on `read_wq` (wait condition false) or the call completes
with a new node, the bytes copied to user space and the return value. -/
inductive ReadResult where
  | blocks (n : RbBufNode)
  | done (n : RbBufNode) (out : List Byte) (ret : Int)
  deriving Repr, DecidableEq

/-- The function `sbertask_read` acting on its queue node.  C control flow: if
`!buffer_head || buffer_length == 0`, set `read_ready = 0` and
`wait_event_interruptible(read_wq, read_ready || finished)` — if the wait
condition is false the caller blocks; if it is already true (only possible
through `finished`, as `read_ready` was just cleared) the post-wait check
`!read_ready || !buffer_length` sends control to `exit` with `ret = 0`.
Otherwise data is present and the transfer runs. -/
def sbertask_read_node (n : RbBufNode) (len : Nat) : ReadResult :=
  if n.head_alloc = false ∨ n.buffer_length = 0 then
    let n1 := { n with read_ready := false }
    if n1.read_ready || n1.finished then
      ReadResult.done n1 [] 0
    else
      ReadResult.blocks n1
  else
    let r := transferBytes n len
    ReadResult.done r.1 r.2.1 r.2.2

/-- A reader previously blocked in `wait_event_interruptible(read_wq,
read_ready || finished)` re-evaluates the wait condition after a wake-up:
`none` means the condition is still false and the reader keeps sleeping;
otherwise the read continues with the post-wait check
`if (!read_ready || !buffer_length) goto exit;` (returning 0) and, failing
that, the transfer. -/
def sbertask_read_resume (n : RbBufNode) (len : Nat) :
    Option (RbBufNode × List Byte × Int) :=
  if n.read_ready || n.finished then
    if n.read_ready = false ∨ n.buffer_length = 0 then
      some (n, [], 0)
    else
      some (transferBytes n len)
  else
    none

/-- The three driver modes selected by the `mode` module parameter. -/
inductive Mode where
  | defaultMode
  | single
  | multi
  deriving Repr, DecidableEq

/-- The effect of `sbertask_release` on the queue node of the closing
caller.  In `MODE_SINGLE` and `MODE_DEFAULT` the driver sets
`finished = 1` and wakes `read_wq`; in `MODE_MULTI` the case body is empty
and the node is untouched (no `finished`, no wake-up). -/
def sbertask_release_wake (m : Mode) (n : RbBufNode) : RbBufNode :=
  match m with
  | Mode.defaultMode => { n with finished := true }
  | Mode.single => { n with finished := true }
  | Mode.multi => n

/-- Lookup in the red-black tree of buffers (`get_buffer`): the tree is an
ordered map keyed by pid, modelled as an association list. -/
def lookupBuf : List (Pid × RbBufNode) → Pid → Option RbBufNode
  | [], _ => none
  | (p, n) :: rest, pid => if pid = p then some n else lookupBuf rest pid

/-- Replace the node stored under a pid, leaving other entries unchanged
(the C code mutates the found node in place). -/
def updateBuf : List (Pid × RbBufNode) → Pid → RbBufNode → List (Pid × RbBufNode)
  | [], _, _ => []
  | (p, n) :: rest, pid, n' =>
      if pid = p then (p, n') :: rest else (p, n) :: updateBuf rest pid n'

/-- The function `add_buffer`: walk the tree; if a node with this pid exists, leave the
tree unchanged, otherwise insert a freshly initialised node (allocation is
modelled as succeeding, so the `-ENOMEM` branch does not arise). -/
def add_buffer (tree : List (Pid × RbBufNode)) (pid : Pid) :
    List (Pid × RbBufNode) :=
  match lookupBuf tree pid with
  | some _ => tree
  | none => (pid, initNode pid) :: tree

/-- Outcome of `sbertask_write` in `MODE_MULTI`, where the buffer is looked
up by the caller's pid.  When `get_buffer` returns `NULL` the C code jumps
to the `exit` label, which then executes `buf_node->read_ready = 1` — a
dereference of the null pointer; `nullDeref` records that this statement is
reached with `buf_node == NULL`. -/
inductive WriteResult where
  | nullDeref
  | done (tree : List (Pid × RbBufNode)) (ret : Nat)
  deriving Repr, DecidableEq

/-- The function `sbertask_write` in `MODE_MULTI`: look the caller's buffer up by pid;
on `NULL` control reaches the exit-label store through the null pointer;
otherwise the per-node write runs on the caller's own node. -/
def sbertask_write_multi (tree : List (Pid × RbBufNode)) (pid : Pid)
    (data : List Byte) : WriteResult :=
  match lookupBuf tree pid with
  | none => WriteResult.nullDeref
  | some n =>
      let r := sbertask_write_node n data
      WriteResult.done (updateBuf tree pid r.1) r.2

/-- Outcome of `sbertask_read` in `MODE_MULTI`: an immediate error return
(`err ret` models `return -EINVAL` on a missing buffer), a blocked reader,
or a completed read. -/
inductive ReadDirResult where
  | err (ret : Int)
  | blocks (tree : List (Pid × RbBufNode))
  | done (tree : List (Pid × RbBufNode)) (out : List Byte) (ret : Int)
  deriving Repr, DecidableEq

/-- The function `sbertask_read` in `MODE_MULTI`: look the caller's buffer up by pid;
`if (buf_node == NULL) return -EINVAL;`; otherwise the per-node read runs
on the caller's own node. -/
def sbertask_read_multi (tree : List (Pid × RbBufNode)) (pid : Pid)
    (len : Nat) : ReadDirResult :=
  match lookupBuf tree pid with
  | none => ReadDirResult.err (-EINVAL)
  | some n =>
      match sbertask_read_node n len with
      | ReadResult.blocks n' => ReadDirResult.blocks (updateBuf tree pid n')
      | ReadResult.done n' out ret =>
          ReadDirResult.done (updateBuf tree pid n') out ret

/-- The caller-visible part of a read outcome: `none` for the `-EINVAL`
return, `some none` for a reader that blocks, `some (some (out, ret))` for
a completed read with its bytes and return value. -/
def readView : ReadDirResult → Option (Option (List Byte × Int))
  | ReadDirResult.err _ => none
  | ReadDirResult.blocks _ => some none
  | ReadDirResult.done _ out ret => some (some (out, ret))

/-- Driver state relevant to `MODE_SINGLE` opens: whether
`mode_single_mutex` is held, plus the buffer tree. -/
structure SingleState where
  locked : Bool
  tree : List (Pid × RbBufNode)
  deriving Repr, DecidableEq

/-- The function `sbertask_open` in `MODE_SINGLE`: `if (!mutex_trylock(&mode_single_mutex))
return -EBUSY;` then `add_buffer(0); get_buffer(0)->finished = 0;` and
return 0. -/
def sbertask_open_single (st : SingleState) : SingleState × Int :=
  if st.locked then
    (st, -EBUSY)
  else
    let tree := add_buffer st.tree 0
    let tree :=
      match lookupBuf tree 0 with
      | some n => updateBuf tree 0 { n with finished := false }
      | none => tree
    ({ locked := true, tree := tree }, 0)

/-- The function `sbertask_release` in `MODE_SINGLE`: set `finished = 1` on buffer 0,
wake `read_wq`, and `mutex_unlock(&mode_single_mutex)`. -/
def sbertask_release_single (st : SingleState) : SingleState :=
  let tree :=
    match lookupBuf st.tree 0 with
    | some n => updateBuf st.tree 0 { n with finished := true }
    | none => st.tree
  { locked := false, tree := tree }

/-- One caller operation on a single queue node. -/
inductive QueueOp where
  | write (data : List Byte)
  | read (len : Nat)
  deriving Repr, DecidableEq

/-- Apply one operation to a queue node; a read that blocks leaves the node
in its suspended state (`read_ready` cleared). -/
def applyOp (n : RbBufNode) : QueueOp → RbBufNode
  | QueueOp.write data => (sbertask_write_node n data).1
  | QueueOp.read len =>
      match sbertask_read_node n len with
      | ReadResult.blocks n' => n'
      | ReadResult.done n' _ _ => n'

/-- Run a sequence of operations on a queue node. -/
def runOps (n : RbBufNode) : List QueueOp → RbBufNode
  | [] => n
  | op :: rest => runOps (applyOp n op) rest

/-- Run a sequence of writes on a queue node. -/
def runWrites (n : RbBufNode) : List (List Byte) → RbBufNode
  | [] => n
  | w :: rest => runWrites (sbertask_write_node n w).1 rest

/-- Run a sequence of reads with the given requested lengths, collecting
the byte chunks each read returns; the run stops if a read blocks. -/
def runReads (n : RbBufNode) : List Nat → RbBufNode × List (List Byte)
  | [] => (n, [])
  | len :: rest =>
      match sbertask_read_node n len with
      | ReadResult.done n' out _ =>
          let r := runReads n' rest
          (r.1, out :: r.2)
      | ReadResult.blocks n' => (n', [])

/-- Invariant of one queue node: the stored `buffer_length` is within
capacity and counts exactly the data-carrying elements of the chain, and a
null `buffer_head` implies an empty chain. -/
def NodeInv (n : RbBufNode) : Prop :=
  0 ≤ n.buffer_length ∧ n.buffer_length ≤ BUFFER_DEPTH ∧
    n.buffer_length = n.chain.length ∧ (n.head_alloc = false → n.chain = [])

/-! ## Characterisation of the write and read loops -/

/-- The append loop transfers exactly the prefix of the data that fits
below `BUFFER_DEPTH`, appends it at the tail, and counts it. -/
theorem write_loop_eq (data : List Byte) : ∀ (chain : List Byte) (blen : Int), 0 ≤ blen →
    write_loop chain blen data =
      (chain ++ data.take (BUFFER_DEPTH - blen).toNat,
       blen + min data.length (BUFFER_DEPTH - blen).toNat,
       min data.length (BUFFER_DEPTH - blen).toNat) := by
  induction data with
  | nil =>
      intro chain blen h
      simp [write_loop]
  | cons b rest ih =>
      intro chain blen h
      by_cases hb : blen < BUFFER_DEPTH
      · have hk : (BUFFER_DEPTH - blen).toNat = (BUFFER_DEPTH - (blen + 1)).toNat + 1 := by
          simp only [BUFFER_DEPTH] at hb ⊢
          omega
        simp only [write_loop, if_pos hb]
        rw [ih (chain ++ [b]) (blen + 1) (by omega), hk]
        rw [List.take_succ_cons]
        refine Prod.ext ?_ (Prod.ext ?_ ?_)
        · simp
        · simp only [List.length_cons]
          push_cast
          omega
        · simp only [List.length_cons]
          omega
      · have hk : (BUFFER_DEPTH - blen).toNat = 0 := by
          simp only [BUFFER_DEPTH] at hb ⊢
          omega
        simp only [write_loop, if_neg hb, hk]
        simp

/-- The transfer loop of `sbertask_read`, started at counter `k` on a chain
whose length accounts for the rest of `buffer_length`, delivers the next
`len - k` bytes from the front (capped by the chain), deletes them, and
leaves the counter at `k` plus the number delivered. -/
theorem read_loop_eq (chain : List Byte) : ∀ (k len : Nat) (blen : Int),
    blen = (k : Int) + chain.length →
    read_loop k blen len chain =
      (chain.take (len - k), chain.drop (len - k),
       (k : Int) + min chain.length (len - k)) := by
  induction chain with
  | nil =>
      intro k len blen h
      simp [read_loop]
  | cons b rest ih =>
      intro k len blen h
      simp only [List.length_cons] at h
      by_cases hklen : k < len
      · have hcond : (k : Int) < blen ∧ (k : Int) < (len : Int) := by
          constructor
          · rw [h]; push_cast; omega
          · exact_mod_cast hklen
        simp only [read_loop, if_pos hcond]
        have hrec : blen = ((k + 1 : Nat) : Int) + rest.length := by
          rw [h]; push_cast; omega
        have hcast : (k : Int) + 1 = ((k + 1 : Nat) : Int) := by push_cast; ring
        rw [hcast, ih (k + 1) len blen hrec]
        have h1 : len - k = (len - (k + 1)) + 1 := by omega
        rw [h1, List.take_succ_cons, List.drop_succ_cons]
        refine Prod.ext ?_ (Prod.ext ?_ ?_)
        · simp
        · simp
        · simp only [List.length_cons]
          push_cast
          omega
      · have hcond : ¬((k : Int) < blen ∧ (k : Int) < (len : Int)) := by
          intro hc
          exact hklen (by exact_mod_cast hc.2)
        simp only [read_loop, if_neg hcond]
        have h0 : len - k = 0 := by omega
        simp [h0]

/-! ## Node-level specifications and the queue invariant -/

theorem nodeInv_initNode (pid : Pid) : NodeInv (initNode pid) := by
  simp [NodeInv, initNode, BUFFER_DEPTH]

/-- Full characterisation of `sbertask_write` on a node satisfying the
invariant: the accepted prefix (what fits below capacity) is appended at
the tail, `buffer_length` grows by its size, which is also the return
value, and `read_ready` is set. -/
theorem sbertask_write_node_spec (n : RbBufNode) (data : List Byte) (h : NodeInv n) :
    sbertask_write_node n data =
      ({ n with
          chain := n.chain ++ data.take (BUFFER_DEPTH - n.buffer_length).toNat,
          head_alloc := if n.buffer_length = 0 then true else n.head_alloc,
          buffer_length :=
            n.buffer_length + min data.length (BUFFER_DEPTH - n.buffer_length).toNat,
          read_ready := true,
          write_ready :=
            if BUFFER_DEPTH ≤ n.buffer_length then false else n.write_ready },
       min data.length (BUFFER_DEPTH - n.buffer_length).toNat) := by
  obtain ⟨hge, hle, hlen, hnull⟩ := h
  by_cases h0 : n.buffer_length = 0
  · have hchain : n.chain = [] := by
      rw [h0] at hlen
      have : n.chain.length = 0 := by exact_mod_cast hlen.symm
      exact List.length_eq_zero.mp this
    have hnotfull : ¬ BUFFER_DEPTH ≤ n.buffer_length := by
      rw [h0]
      norm_num [BUFFER_DEPTH]
    simp only [sbertask_write_node, if_neg hnotfull, if_pos h0]
    rw [write_loop_eq data [] n.buffer_length hge]
    simp [h0, hchain]
  · by_cases hfull : BUFFER_DEPTH ≤ n.buffer_length
    · simp only [sbertask_write_node, if_pos hfull, if_neg h0]
      rw [write_loop_eq data n.chain n.buffer_length hge]
    · simp only [sbertask_write_node, if_neg hfull, if_neg h0]
      rw [write_loop_eq data n.chain n.buffer_length hge]

/-- Characterisation of `sbertask_read` on a node with data present: the
first `min requested length` bytes leave the queue from the head, are
returned to the caller, and the count is the return value. -/
theorem sbertask_read_node_spec (n : RbBufNode) (len : Nat) (h : NodeInv n)
    (hne : n.chain ≠ []) :
    ∃ n', sbertask_read_node n len =
        ReadResult.done n' (n.chain.take len) ((min n.chain.length len : Nat) : Int) ∧
      n'.chain = n.chain.drop len ∧
      n'.buffer_length = ((n.chain.drop len).length : Int) ∧
      n'.head_alloc = n.head_alloc ∧
      n'.finished = n.finished ∧
      n'.write_ready = true ∧
      n'.read_ready = (if n'.buffer_length = 0 then false else n.read_ready) := by
  obtain ⟨hge, hle, hlen, hnull⟩ := h
  have hha : n.head_alloc = true := by
    cases hha : n.head_alloc with
    | false => exact absurd (hnull hha) hne
    | true => rfl
  have hb0 : ¬ n.buffer_length = 0 := by
    rw [hlen]
    simpa using hne
  have hcond : ¬ (n.head_alloc = false ∨ n.buffer_length = 0) := by
    rw [hha]
    simp [hb0]
  have hloop := read_loop_eq n.chain 0 len n.buffer_length (by rw [hlen]; simp)
  simp only [Nat.sub_zero, Nat.cast_zero, zero_add] at hloop
  simp only [sbertask_read_node, if_neg hcond, transferBytes, hloop]
  refine ⟨_, rfl, rfl, ?_, rfl, rfl, rfl, rfl⟩
  simp only [List.length_drop]
  rw [hlen]
  push_cast
  omega

/-- Applying one operation preserves the queue-node invariant. -/
theorem nodeInv_applyOp (n : RbBufNode) (op : QueueOp) (h : NodeInv n) :
    NodeInv (applyOp n op) := by
  obtain ⟨hge, hle, hlen, hnull⟩ := h
  cases op with
  | write data =>
      have hw := sbertask_write_node_spec n data ⟨hge, hle, hlen, hnull⟩
      simp only [applyOp, hw]
      refine ⟨by dsimp only; omega, ?_, ?_, ?_⟩
      · have hcap : ((BUFFER_DEPTH - n.buffer_length).toNat : Int)
            = BUFFER_DEPTH - n.buffer_length :=
          Int.toNat_of_nonneg (by omega)
        dsimp only
        push_cast
        omega
      · simp only [List.length_append, List.length_take]
        rw [hlen]
        push_cast
        omega
      · dsimp only
        intro hfalse
        by_cases h0 : n.buffer_length = 0
        · simp [h0] at hfalse
        · rw [if_neg h0] at hfalse
          have := hnull hfalse
          rw [this] at hlen
          simp at hlen
          exact absurd hlen h0
  | read len =>
      by_cases hcond : n.head_alloc = false ∨ n.buffer_length = 0
      · simp only [applyOp, sbertask_read_node, if_pos hcond]
        by_cases hw : ({ n with read_ready := false } : RbBufNode).read_ready
            || ({ n with read_ready := false } : RbBufNode).finished
        · simp only [if_pos hw]
          exact ⟨hge, hle, hlen, hnull⟩
        · simp only [if_neg hw]
          exact ⟨hge, hle, hlen, hnull⟩
      · have hne : n.chain ≠ [] := by
          push_neg at hcond
          intro hnil
          rw [hnil] at hlen
          simp at hlen
          exact hcond.2 hlen
        obtain ⟨n', heq, hchain, hblen, hha, hfin, hwr, hrr⟩ :=
          sbertask_read_node_spec n len ⟨hge, hle, hlen, hnull⟩ hne
        simp only [applyOp, heq]
        refine ⟨by rw [hblen]; positivity, ?_, by rw [hblen, hchain], ?_⟩
        · rw [hblen]
          rw [hlen] at hle
          simp only [List.length_drop]
          omega
        · intro hfalse
          rw [hha] at hfalse
          exact absurd (hnull hfalse) hne

/-- The invariant holds after any sequence of operations from an
invariant-satisfying start node. -/
theorem nodeInv_runOps (ops : List QueueOp) : ∀ (n : RbBufNode), NodeInv n →
    NodeInv (runOps n ops) := by
  induction ops with
  | nil => intro n h; exact h
  | cons op rest ih =>
      intro n h
      exact ih (applyOp n op) (nodeInv_applyOp n op h)

/-! ## Runs of writes and reads -/

/-- Writes whose total payload fits in the remaining capacity are appended
in full and in order at the tail of the chain. -/
theorem runWrites_spec (ws : List (List Byte)) : ∀ (n : RbBufNode), NodeInv n →
    n.buffer_length + ((ws.flatten).length : Int) ≤ BUFFER_DEPTH →
    (runWrites n ws).chain = n.chain ++ ws.flatten ∧ NodeInv (runWrites n ws) := by
  induction ws with
  | nil =>
      intro n h _
      exact ⟨by simp [runWrites], h⟩
  | cons w rest ih =>
      intro n h hfit
      have hinv' : NodeInv (sbertask_write_node n w).1 := by
        have := nodeInv_applyOp n (QueueOp.write w) h
        simpa [applyOp] using this
      have hw := sbertask_write_node_spec n w h
      have hKw : w.length ≤ (BUFFER_DEPTH - n.buffer_length).toNat := by
        simp only [List.flatten_cons, List.length_append] at hfit
        push_cast at hfit
        omega
      have hchain1 : (sbertask_write_node n w).1.chain = n.chain ++ w := by
        rw [hw]
        simp [List.take_of_length_le hKw]
      have hblen1 : (sbertask_write_node n w).1.buffer_length
          = n.buffer_length + w.length := by
        rw [hw]
        simp [min_eq_left hKw]
      have hfit' : (sbertask_write_node n w).1.buffer_length
          + ((rest.flatten).length : Int) ≤ BUFFER_DEPTH := by
        rw [hblen1]
        simp only [List.flatten_cons, List.length_append] at hfit
        push_cast at hfit ⊢
        omega
      obtain ⟨hc, hi⟩ := ih (sbertask_write_node n w).1 hinv' hfit'
      constructor
      · show (runWrites (sbertask_write_node n w).1 rest).chain = _
        rw [hc, hchain1]
        simp [List.flatten_cons]
      · exact hi

/-- Reads at valid split points drain the queue in order: if every read
requests a positive count and the counts sum to the number of queued
bytes, the chunks returned are exactly the queued bytes, in order. -/
theorem runReads_spec (ns : List Nat) : ∀ (n : RbBufNode), NodeInv n →
    (∀ k ∈ ns, 0 < k) → ns.sum = n.chain.length →
    (runReads n ns).2.flatten = n.chain := by
  induction ns with
  | nil =>
      intro n _ _ hsum
      have hnil : n.chain = [] := by
        simp only [List.sum_nil] at hsum
        exact List.length_eq_zero.mp hsum.symm
      simp [runReads, hnil]
  | cons k rest ih =>
      intro n h hpos hsum
      have hk : 0 < k := hpos k (by simp)
      have hne : n.chain ≠ [] := by
        intro hnil
        rw [hnil] at hsum
        simp only [List.sum_cons, List.length_nil] at hsum
        omega
      obtain ⟨n', heq, hchain, hblen, hha, hfin, hwr, hrr⟩ :=
        sbertask_read_node_spec n k h hne
      obtain ⟨hge, hle, hlen, hnull⟩ := h
      have hinv' : NodeInv n' := by
        refine ⟨by rw [hblen]; positivity, ?_, by rw [hblen, hchain], ?_⟩
        · rw [hblen]
          rw [hlen] at hle
          simp only [List.length_drop]
          omega
        · intro hfalse
          rw [hha] at hfalse
          exact absurd (hnull hfalse) hne
      have hsum' : rest.sum = n'.chain.length := by
        rw [hchain]
        simp only [List.length_drop]
        simp only [List.sum_cons] at hsum
        omega
      have hout := ih n' hinv' (fun j hj => hpos j (by simp [hj])) hsum'
      simp only [runReads, heq]
      simp only [List.flatten_cons]
      rw [hout, hchain]
      exact List.take_append_drop k n.chain

/-- Updating the node stored under one pid does not change what is found
under any other pid. -/
theorem lookupBuf_updateBuf_ne (a b : Pid) (x : RbBufNode) (hab : b ≠ a) :
    ∀ (tree : List (Pid × RbBufNode)),
    lookupBuf (updateBuf tree a x) b = lookupBuf tree b := by
  intro tree
  induction tree with
  | nil => rfl
  | cons e rest ih =>
      obtain ⟨p, m⟩ := e
      by_cases hpa : a = p
      · subst hpa
        simp only [updateBuf, if_pos rfl, lookupBuf, if_neg hab]
      · simp only [updateBuf, if_neg hpa, lookupBuf]
        by_cases hbp : b = p
        · simp [hbp]
        · simp only [if_neg hbp]
          exact ih

/-! ## Claims -/

/-- C1: For every single queue, bytes are delivered in write order: for
all sequences of writes to one queue (whose total payload fits the
capacity, so that every byte is accepted) and all valid split points
(positive read requests summing to the number of queued bytes), the
subsequent reads return exactly the concatenated written bytes in the same
order. -/
theorem C1_fifo_order (pid : Pid) (ws : List (List Byte)) (ns : List Nat)
    (hcap : ((ws.flatten).length : Int) ≤ BUFFER_DEPTH)
    (hpos : ∀ k ∈ ns, 0 < k)
    (hsplit : ns.sum = (ws.flatten).length) :
    (runReads (runWrites (initNode pid) ws) ns).2.flatten = ws.flatten := by
  obtain ⟨hchain, hinv⟩ := runWrites_spec ws (initNode pid) (nodeInv_initNode pid)
    (by simpa [initNode] using hcap)
  have hsum : ns.sum = (runWrites (initNode pid) ws).chain.length := by
    rw [hchain]
    simpa [initNode] using hsplit
  rw [runReads_spec ns (runWrites (initNode pid) ws) hinv hpos hsum, hchain]
  simp [initNode]

/-- Witness for C1 at a concrete instance: writes `[1,2]` then `[3]`,
reads split as `2` then `1`, deliver `[1,2,3]`. -/
theorem C1_fifo_order_witness :
    (([[1,2],[3]] : List (List Byte)).flatten.length : Int) ≤ BUFFER_DEPTH ∧
    (∀ k ∈ ([2,1] : List Nat), 0 < k) ∧
    ([2,1] : List Nat).sum = ([[1,2],[3]] : List (List Byte)).flatten.length ∧
    (runReads (runWrites (initNode 0) [[1,2],[3]]) [2,1]).2.flatten
      = ([[1,2],[3]] : List (List Byte)).flatten :=
  ⟨by decide, by decide, by decide,
    C1_fifo_order 0 [[1,2],[3]] [2,1] (by decide) (by decide) (by decide)⟩

/-- C2: For every queue and every sequence of read/write operations, the
queue's length never exceeds the fixed capacity of 1000 bytes: the length
stays in `0..=1000` after every operation. -/
theorem C2_capacity_bound (pid : Pid) (ops : List QueueOp) :
    0 ≤ (runOps (initNode pid) ops).buffer_length ∧
      (runOps (initNode pid) ops).buffer_length ≤ 1000 := by
  have h := nodeInv_runOps ops (initNode pid) (nodeInv_initNode pid)
  refine ⟨h.1, ?_⟩
  have := h.2.1
  simpa [BUFFER_DEPTH] using this

/-- C3: A write longer than the remaining capacity is not an error:
writing 1500 bytes to an empty queue appends exactly the first 1000 bytes,
returns count 1000, and the remaining 500 bytes are not queued. -/
theorem C3_short_write (pid : Pid) (data : List Byte) (h : data.length = 1500) :
    (sbertask_write_node (initNode pid) data).2 = 1000 ∧
    (sbertask_write_node (initNode pid) data).1.chain = data.take 1000 ∧
    (sbertask_write_node (initNode pid) data).1.buffer_length = 1000 := by
  have hw := sbertask_write_node_spec (initNode pid) data (nodeInv_initNode pid)
  rw [hw]
  have ht : (1000 : Int).toNat = 1000 := rfl
  refine ⟨?_, ?_, ?_⟩
  · norm_num [initNode, BUFFER_DEPTH, ht, h]
  · norm_num [initNode, BUFFER_DEPTH, ht]
  · norm_num [initNode, BUFFER_DEPTH, ht, h]

/-- Witness for C3 at a concrete 1500-byte input. -/
theorem C3_short_write_witness :
    (List.range 1500).length = 1500 ∧
    ((sbertask_write_node (initNode 0) (List.range 1500)).2 = 1000 ∧
      (sbertask_write_node (initNode 0) (List.range 1500)).1.chain
        = (List.range 1500).take 1000 ∧
      (sbertask_write_node (initNode 0) (List.range 1500)).1.buffer_length = 1000) :=
  ⟨by simp, C3_short_write 0 (List.range 1500) (by simp)⟩

/-- C4: When a read finds data present, it removes and transfers exactly
`min (requested length) (queue length)` bytes from the head of the queue
(the transferred prefix plus the remaining chain reassemble the original
chain) and returns that transfer count. -/
theorem C4_read_transfers_min (n : RbBufNode) (len : Nat)
    (hinv : NodeInv n) (hne : n.chain ≠ []) :
    ∃ n', sbertask_read_node n len =
        ReadResult.done n' (n.chain.take len) ((min len n.chain.length : Nat) : Int) ∧
      (n.chain.take len).length = min len n.chain.length ∧
      n'.chain = n.chain.drop len ∧
      n'.buffer_length = n.buffer_length - ((min len n.chain.length : Nat) : Int) ∧
      n.chain.take len ++ n'.chain = n.chain := by
  obtain ⟨n', heq, hchain, hblen, _, _, _, _⟩ := sbertask_read_node_spec n len hinv hne
  refine ⟨n', ?_, ?_, hchain, ?_, ?_⟩
  · rw [heq, min_comm]
  · simp [min_comm]
  · rw [hblen, hinv.2.2.1]
    simp only [List.length_drop]
    push_cast
    omega
  · rw [hchain]
    exact List.take_append_drop len n.chain

/-- Witness for C4 on a queue holding `[1,2,3]` read with requested
length 2. -/
theorem C4_read_transfers_min_witness :
    NodeInv { pid := 0, chain := [1,2,3], head_alloc := true, buffer_length := 3,
              read_ready := true, write_ready := true, finished := false } ∧
    (∃ n', sbertask_read_node
        { pid := 0, chain := [1,2,3], head_alloc := true, buffer_length := 3,
          read_ready := true, write_ready := true, finished := false } 2 =
          ReadResult.done n' (([1,2,3] : List Byte).take 2)
            ((min 2 ([1,2,3] : List Byte).length : Nat) : Int) ∧
      (([1,2,3] : List Byte).take 2).length = min 2 ([1,2,3] : List Byte).length ∧
      n'.chain = ([1,2,3] : List Byte).drop 2 ∧
      n'.buffer_length = 3 - ((min 2 ([1,2,3] : List Byte).length : Nat) : Int) ∧
      ([1,2,3] : List Byte).take 2 ++ n'.chain = [1,2,3]) :=
  ⟨⟨by norm_num, by norm_num [BUFFER_DEPTH], by norm_num, fun h => nomatch h⟩,
    C4_read_transfers_min
      { pid := 0, chain := [1,2,3], head_alloc := true, buffer_length := 3,
        read_ready := true, write_ready := true, finished := false } 2
      ⟨by norm_num, by norm_num [BUFFER_DEPTH], by norm_num, fun h => nomatch h⟩
      (by decide)⟩

/-- C5 counterexample: after writing one byte and reading it back, the
stored length is 0 but `buffer_head` is not null (the sentinel element
persists), so "length == 0 iff head == null" fails on the code. -/
theorem C5_counterexample :
    (runOps (initNode 0) [QueueOp.write [7], QueueOp.read 1]).buffer_length = 0 ∧
    (runOps (initNode 0) [QueueOp.write [7], QueueOp.read 1]).head_alloc = true := by
  decide

/-- C5 (amended): after every operation the stored length equals the
number of data-carrying elements in the linked chain, and a null head
pointer implies length 0 (equivalently: the head is allocated or the
length is 0); the converse implication does not hold once a sentinel head
has been allocated. -/
theorem C5_length_chain_invariant (pid : Pid) (ops : List QueueOp) :
    (runOps (initNode pid) ops).buffer_length
        = ((runOps (initNode pid) ops).chain.length : Int) ∧
    ((runOps (initNode pid) ops).head_alloc = true ∨
      (runOps (initNode pid) ops).buffer_length = 0) := by
  have h := nodeInv_runOps ops (initNode pid) (nodeInv_initNode pid)
  refine ⟨h.2.2.1, ?_⟩
  cases hh : (runOps (initNode pid) ops).head_alloc with
  | true => exact Or.inl rfl
  | false =>
      refine Or.inr ?_
      rw [h.2.2.1, h.2.2.2 hh]
      rfl

/-- C6: Under the single policy, an open call made while another open is
active fails immediately with `-EBUSY` (the `mutex_trylock` fails, so the
call neither blocks nor creates a second active handle: the state is
returned unchanged); hence at most one reader/writer pair is active at a
time. -/
theorem C6_single_open_busy (st : SingleState) (h : st.locked = true) :
    sbertask_open_single st = (st, -EBUSY) := by
  simp [sbertask_open_single, h]

/-- Witness for C6: after a first successful open the mutex is held, and a
second open returns `-EBUSY` with the state unchanged. -/
theorem C6_single_open_busy_witness :
    (sbertask_open_single ⟨false, []⟩).1.locked = true ∧
    sbertask_open_single (sbertask_open_single ⟨false, []⟩).1
      = ((sbertask_open_single ⟨false, []⟩).1, -EBUSY) :=
  ⟨by decide, C6_single_open_busy (sbertask_open_single ⟨false, []⟩).1 (by decide)⟩

/-- C7: On an identity with no queue, the read path does return the
explicit invalid-argument condition `-EINVAL`, but the write path does
not: `sbertask_write` jumps to its `exit` label, which executes
`buf_node->read_ready = 1` on the null pointer — the modelled execution
reaches the null dereference instead of returning an error. -/
theorem C7_missing_queue_paths :
    sbertask_read_multi [] 5 10 = ReadDirResult.err (-EINVAL) ∧
    sbertask_write_multi [] 5 [1] = WriteResult.nullDeref := by
  exact ⟨rfl, rfl⟩

/-- C8 counterexample (multi policy): a reader blocked on the empty queue
of pid 7 is not woken by `sbertask_release` — the `MODE_MULTI` case of
release does nothing, the wait condition stays false, and the resumed
reader keeps sleeping (`none`) instead of returning count 0. -/
theorem C8_counterexample :
    sbertask_read_node (initNode 7) 5 = ReadResult.blocks (initNode 7) ∧
    sbertask_release_wake Mode.multi (initNode 7) = initNode 7 ∧
    sbertask_read_resume (sbertask_release_wake Mode.multi (initNode 7)) 5 = none := by
  exact ⟨by decide, rfl, by decide⟩

/-- C8 (amended): under the default and single policies, a reader blocked
on an empty queue (its `read_ready` was cleared before suspending) is
woken when the peer disconnects — release sets `finished`, the wait
condition becomes true, and the resumed read returns count 0 (end of
stream, not an error).  Under the multi policy release performs no wake-up
(see the counterexample). -/
theorem C8_release_wakes_reader (m : Mode) (n : RbBufNode) (len : Nat)
    (hm : m = Mode.defaultMode ∨ m = Mode.single)
    (hblocked : n.read_ready = false) :
    sbertask_read_resume (sbertask_release_wake m n) len
      = some ({ n with finished := true }, [], 0) := by
  rcases hm with hm | hm <;> subst hm <;>
    simp [sbertask_release_wake, sbertask_read_resume, hblocked]

/-- Witness for C8 (amended) at a concrete blocked reader under the single
policy. -/
theorem C8_release_wakes_reader_witness :
    (Mode.single = Mode.defaultMode ∨ Mode.single = Mode.single) ∧
    (initNode 3).read_ready = false ∧
    sbertask_read_resume (sbertask_release_wake Mode.single (initNode 3)) 4
      = some ({ initNode 3 with finished := true }, [], 0) :=
  ⟨Or.inr rfl, rfl,
    C8_release_wakes_reader Mode.single (initNode 3) 4 (Or.inr rfl) rfl⟩

/-- C9: Under the multi policy, queues are isolated per identity: a write
by identity A neither changes the queue of a different identity B nor the
caller-visible outcome (bytes, count, blocking, error) of a read performed
by B. -/
theorem C9_multi_isolation (tree : List (Pid × RbBufNode)) (A B : Pid)
    (data : List Byte) (len : Nat) (tree' : List (Pid × RbBufNode)) (ret : Nat)
    (hAB : A ≠ B)
    (hw : sbertask_write_multi tree A data = WriteResult.done tree' ret) :
    lookupBuf tree' B = lookupBuf tree B ∧
    readView (sbertask_read_multi tree' B len)
      = readView (sbertask_read_multi tree B len) := by
  have hBA : B ≠ A := fun hc => hAB hc.symm
  unfold sbertask_write_multi at hw
  cases hlook : lookupBuf tree A with
  | none =>
      rw [hlook] at hw
      exact absurd hw (by simp)
  | some nA =>
      rw [hlook] at hw
      simp only [WriteResult.done.injEq] at hw
      obtain ⟨htree, _⟩ := hw
      have hlb : lookupBuf tree' B = lookupBuf tree B := by
        rw [← htree]
        exact lookupBuf_updateBuf_ne A B (sbertask_write_node nA data).1 hBA tree
      refine ⟨hlb, ?_⟩
      unfold sbertask_read_multi
      rw [hlb]
      cases lookupBuf tree B with
      | none => rfl
      | some nB =>
          cases hr : sbertask_read_node nB len with
          | blocks n' => simp [hr, readView]
          | done n' out r => simp [hr, readView]

/-- Witness for C9: identities 1 and 2 each own a queue; a write of `[9]`
by identity 1 leaves identity 2's queue and read outcome unchanged. -/
theorem C9_multi_isolation_witness :
    ((1 : Pid) ≠ 2) ∧
    sbertask_write_multi [(1, initNode 1), (2, initNode 2)] 1 [9]
      = WriteResult.done
          (updateBuf [(1, initNode 1), (2, initNode 2)] 1
            (sbertask_write_node (initNode 1) [9]).1) 1 ∧
    (lookupBuf (updateBuf [(1, initNode 1), (2, initNode 2)] 1
          (sbertask_write_node (initNode 1) [9]).1) 2
        = lookupBuf [(1, initNode 1), (2, initNode 2)] 2 ∧
      readView (sbertask_read_multi (updateBuf [(1, initNode 1), (2, initNode 2)] 1
          (sbertask_write_node (initNode 1) [9]).1) 2 3)
        = readView (sbertask_read_multi [(1, initNode 1), (2, initNode 2)] 2 3)) :=
  ⟨by decide, by decide,
    C9_multi_isolation [(1, initNode 1), (2, initNode 2)] 1 2 [9] 3
      (updateBuf [(1, initNode 1), (2, initNode 2)] 1
        (sbertask_write_node (initNode 1) [9]).1) 1
      (by decide) (by decide)⟩

/-- C10: Every completed write call on an existing queue ends at the
`exit` label setting `read_ready = 1`, including a write that transfers
zero bytes; consequently `read_ready = true` does not imply that the queue
is non-empty (a zero-byte write to a fresh queue leaves length 0 with
`read_ready` set). -/
theorem C10_write_sets_read_ready :
    (∀ (n : RbBufNode) (data : List Byte),
        (sbertask_write_node n data).1.read_ready = true) ∧
    (sbertask_write_node (initNode 0) []).1.read_ready = true ∧
    (sbertask_write_node (initNode 0) []).1.buffer_length = 0 := by
  refine ⟨?_, by decide, by decide⟩
  intro n data
  simp [sbertask_write_node]
